import Mathlib

/-!
Verification development for the resilience/throughput core of the
clean-platform repository: the circuit breaker
(`services/common/circuit_breaker.py`) and the batched Kafka consumer
(`services/kafka-consumer/optimized_consumer.py`).

Wall-clock times and durations are modelled as integers, failure rates
and their threshold as exact rationals; the rolling window is a list
with deque-style eviction at the front.
-/

/-- States of the breaker, from the `CircuitState` enum. -/
inductive CircuitState where
  | CLOSED
  | OPEN
  | HALF_OPEN
deriving DecidableEq, Repr

/-- One entry of the metrics deque: `{'success': ..., 'timestamp': ...,
'duration': ..., 'error': ...}`. -/
structure CallEntry where
  success : Bool
  timestamp : ℤ
  duration : ℤ
  error : Option String
deriving DecidableEq, Repr

/-- `deque(maxlen=w)` append: push at the right, evict from the left when
the capacity `w` is exceeded. -/
def dequePush (w : Nat) (xs : List CallEntry) (x : CallEntry) : List CallEntry :=
  let ys := xs ++ [x]
  ys.drop (ys.length - w)

/-- `CircuitBreakerMetrics`: rolling window plus counters. -/
structure CircuitBreakerMetrics where
  window_size : Nat
  calls : List CallEntry
  total_calls : Nat
  successful_calls : Nat
  failed_calls : Nat
  rejected_calls : Nat
  last_failure_time : Option ℤ
  last_success_time : Option ℤ
  circuit_opened_at : Option ℤ
deriving DecidableEq, Repr

/-- `CircuitBreakerMetrics.__init__(window_size)`. -/
def CircuitBreakerMetrics.init (window_size : Nat) : CircuitBreakerMetrics :=
  { window_size := window_size
    calls := []
    total_calls := 0
    successful_calls := 0
    failed_calls := 0
    rejected_calls := 0
    last_failure_time := none
    last_success_time := none
    circuit_opened_at := none }

/-- `record_success(duration)` at wall-clock time `now`. -/
def CircuitBreakerMetrics.record_success (m : CircuitBreakerMetrics)
    (duration now : ℤ) : CircuitBreakerMetrics :=
  { m with
    calls := dequePush m.window_size m.calls
      { success := true, timestamp := now, duration := duration, error := none }
    total_calls := m.total_calls + 1
    successful_calls := m.successful_calls + 1
    last_success_time := some now }

/-- `record_failure(error, duration)` at wall-clock time `now`. -/
def CircuitBreakerMetrics.record_failure (m : CircuitBreakerMetrics)
    (error : String) (duration now : ℤ) : CircuitBreakerMetrics :=
  { m with
    calls := dequePush m.window_size m.calls
      { success := false, timestamp := now, duration := duration, error := some error }
    total_calls := m.total_calls + 1
    failed_calls := m.failed_calls + 1
    last_failure_time := some now }

/-- `record_rejection()`. -/
def CircuitBreakerMetrics.record_rejection (m : CircuitBreakerMetrics) :
    CircuitBreakerMetrics :=
  { m with
    total_calls := m.total_calls + 1
    rejected_calls := m.rejected_calls + 1 }

/-- `get_failure_rate()`: `0.0` on an empty window, else the exact
rational quotient of failures over populated window entries (`mkRat n d`
is the rational `n / d`). -/
def CircuitBreakerMetrics.get_failure_rate (m : CircuitBreakerMetrics) : ℚ :=
  if m.calls.isEmpty then 0
  else mkRat (m.calls.countP (fun c => !c.success) : ℤ) m.calls.length

/-- `CircuitBreaker`: configuration plus mutable state.  The stored
`fallback_function` is not a field here; `call` instead receives the
optional value the configured fallback would produce on the given
arguments (`none` models "no fallback configured"). -/
structure CircuitBreaker where
  name : String
  failure_threshold : Nat
  recovery_timeout : ℤ
  success_threshold : Nat
  failure_rate_threshold : ℚ
  _state : CircuitState
  failure_count : Nat
  success_count : Nat
  last_failure_time : Option ℤ
  metrics : CircuitBreakerMetrics
deriving DecidableEq, Repr

/-- `CircuitBreaker.__init__`. -/
def CircuitBreaker.init (name : String) (failure_threshold : Nat)
    (recovery_timeout : ℤ) (success_threshold : Nat)
    (failure_rate_threshold : ℚ) (window_size : Nat) : CircuitBreaker :=
  { name := name
    failure_threshold := failure_threshold
    recovery_timeout := recovery_timeout
    success_threshold := success_threshold
    failure_rate_threshold := failure_rate_threshold
    _state := CircuitState.CLOSED
    failure_count := 0
    success_count := 0
    last_failure_time := none
    metrics := CircuitBreakerMetrics.init window_size }

/-- `_should_attempt_reset()`: Python truthiness makes a `0.0` timestamp
behave like `None` in `self._last_failure_time and ...`. -/
def CircuitBreaker._should_attempt_reset (b : CircuitBreaker) (now : ℤ) : Bool :=
  match b.last_failure_time with
  | none => false
  | some t => decide (t ≠ 0) && decide (b.recovery_timeout ≤ now - t)

/-- `_transition_to_open()` at wall-clock time `now`. -/
def CircuitBreaker._transition_to_open (b : CircuitBreaker) (now : ℤ) :
    CircuitBreaker :=
  { b with
    _state := CircuitState.OPEN
    failure_count := 0
    success_count := 0
    metrics := { b.metrics with circuit_opened_at := some now } }

/-- `_transition_to_half_open()`. -/
def CircuitBreaker._transition_to_half_open (b : CircuitBreaker) : CircuitBreaker :=
  { b with
    _state := CircuitState.HALF_OPEN
    success_count := 0
    failure_count := 0 }

/-- `_transition_to_closed()`. -/
def CircuitBreaker._transition_to_closed (b : CircuitBreaker) : CircuitBreaker :=
  { b with
    _state := CircuitState.CLOSED
    failure_count := 0
    success_count := 0
    metrics := { b.metrics with circuit_opened_at := none } }

/-- The `state` property: lazily performs OPEN→HALF_OPEN before
returning the current state. -/
def CircuitBreaker.state (b : CircuitBreaker) (now : ℤ) :
    CircuitState × CircuitBreaker :=
  if b._state = CircuitState.OPEN ∧ b._should_attempt_reset now then
    let b2 := b._transition_to_half_open
    (b2._state, b2)
  else
    (b._state, b)

/-- `_on_success(duration)` at wall-clock time `now`. -/
def CircuitBreaker._on_success (b : CircuitBreaker) (duration now : ℤ) :
    CircuitBreaker :=
  let b2 := { b with metrics := b.metrics.record_success duration now }
  if b2._state = CircuitState.HALF_OPEN then
    let b3 := { b2 with success_count := b2.success_count + 1 }
    if b3.success_threshold ≤ b3.success_count then
      b3._transition_to_closed
    else
      b3
  else
    { b2 with failure_count := 0 }

/-- `_on_failure(error, duration)` at wall-clock time `now`. -/
def CircuitBreaker._on_failure (b : CircuitBreaker) (error : String)
    (duration now : ℤ) : CircuitBreaker :=
  let b2 := { b with
    metrics := b.metrics.record_failure error duration now
    last_failure_time := some now }
  match b2._state with
  | CircuitState.CLOSED =>
      let b3 := { b2 with failure_count := b2.failure_count + 1 }
      if b3.failure_threshold ≤ b3.failure_count ∨
          b3.failure_rate_threshold ≤ b3.metrics.get_failure_rate then
        b3._transition_to_open now
      else
        b3
  | CircuitState.HALF_OPEN => b2._transition_to_open now
  | CircuitState.OPEN => b2

/-- `reset()`: administrative force to CLOSED. -/
def CircuitBreaker.reset (b : CircuitBreaker) : CircuitBreaker :=
  b._transition_to_closed

/-- Behaviour of the wrapped operation on one invocation: return a value,
raise the configured expected exception, or raise some other exception. -/
inductive OpBehavior (α : Type) where
  | ok (v : α)
  | raises (e : String)
  | raisesOther (e : String)

/-- Result of `call()`: a normal return, the fallback function result, a
`CircuitBreakerError`, or a propagated exception from the operation. -/
inductive CallResult (α : Type) where
  | value (v : α)
  | fallbackValue (v : α)
  | circuitOpenError
  | opError (e : String)
  | otherError (e : String)
deriving DecidableEq

/-- What one `call()` produced: the result, whether the wrapped operation
was invoked, and the breaker afterwards. -/
structure CallOutcome (α : Type) where
  result : CallResult α
  invoked : Bool
  breaker : CircuitBreaker

/-- `call(func, *args, **kwargs)` at wall-clock time `now`.  `op` is what
the wrapped operation would do if invoked, `fb` the value the configured
fallback would return on the same arguments (`none` = no fallback). -/
def CircuitBreaker.call {α : Type} (b : CircuitBreaker) (now : ℤ)
    (op : OpBehavior α) (fb : Option α) : CallOutcome α :=
  let q := b.state now
  if q.1 = CircuitState.OPEN then
    let b2 := { q.2 with metrics := q.2.metrics.record_rejection }
    match fb with
    | some v => { result := CallResult.fallbackValue v, invoked := false, breaker := b2 }
    | none => { result := CallResult.circuitOpenError, invoked := false, breaker := b2 }
  else
    match op with
    | OpBehavior.ok v =>
        let b2 := q.2._on_success 0 now
        { result := CallResult.value v, invoked := true, breaker := b2 }
    | OpBehavior.raises e =>
        let b2 := q.2._on_failure e 0 now
        let q2 := b2.state now
        if q2.1 = CircuitState.HALF_OPEN then
          match fb with
          | some v =>
              { result := CallResult.fallbackValue v, invoked := true, breaker := q2.2 }
          | none => { result := CallResult.opError e, invoked := true, breaker := q2.2 }
        else
          { result := CallResult.opError e, invoked := true, breaker := q2.2 }
    | OpBehavior.raisesOther e =>
        { result := CallResult.otherError e, invoked := true, breaker := q.2 }

/-! ## Batched Kafka consumer (`optimized_consumer.py`) -/

/-- `ConsumerConfig` dataclass. -/
structure ConsumerConfig where
  bootstrap_servers : String
  consumer_group : String
  topics : List String
  fetch_min_bytes : Nat
  fetch_max_wait_ms : Nat
  max_poll_records : Nat
  max_poll_interval_ms : Nat
  session_timeout_ms : Nat
  batch_size : Nat
  batch_timeout_ms : ℤ
  num_workers : Nat
  max_retries : Nat
  retry_backoff_ms : Nat
  enable_dlq : Bool
  dlq_topic : Option String
deriving DecidableEq, Repr

/-- The message dict built by `_add_to_batch`; `retry_count` is `none`
when the dict has no such key (`message.get('retry_count', 0)` then
defaults to `0`). -/
structure Message where
  topic : String
  partition : Nat
  offset : Nat
  key : Option String
  value : String
  timestamp : ℤ
  headers : List (String × String)
  retry_count : Option Nat
deriving DecidableEq, Repr

/-- A record as returned by `consumer.poll`. -/
structure KafkaRecord where
  topic : String
  partition : Nat
  offset : Nat
  key : Option String
  value : String
  timestamp : ℤ
  headers : List (String × String)
deriving DecidableEq, Repr

/-- The dict `_add_to_batch` builds from a polled record: exactly the
seven listed keys, so no `retry_count` entry. -/
def KafkaRecord.toMessage (r : KafkaRecord) : Message :=
  { topic := r.topic
    partition := r.partition
    offset := r.offset
    key := r.key
    value := r.value
    timestamp := r.timestamp
    headers := r.headers
    retry_count := none }

/-- A raised Python exception: `str(error)` and `type(error).__name__`. -/
structure PyError where
  message : String
  type_name : String
deriving DecidableEq, Repr

/-- `TopicPartition(topic, partition)`. -/
abbrev TopicPartition := String × Nat

/-- Python-dict assignment `d[k] = v`: replace in place if the key is
present, else append (insertion order preserved). -/
def dictInsert {K V : Type} [DecidableEq K] : List (K × V) → K → V → List (K × V)
  | [], k, v => [(k, v)]
  | (k0, v0) :: rest, k, v =>
      if k0 = k then (k, v) :: rest else (k0, v0) :: dictInsert rest k v

/-- Python-dict read `d.get(k)`. -/
def dictFind {K V : Type} [DecidableEq K] : List (K × V) → K → Option V
  | [], _ => none
  | (k0, v) :: rest, k => if k0 = k then some v else dictFind rest k

namespace OptimizedKafkaConsumer

/-- The offsets dict built by `_commit_batch_offsets` and passed to
`consumer.commit`: for each message, `offsets[tp] = msg['offset'] + 1`. -/
def _commit_batch_offsets (batch : List Message) : List (TopicPartition × Nat) :=
  batch.foldl
    (fun offsets msg => dictInsert offsets (msg.topic, msg.partition) (msg.offset + 1))
    []

/-- The DLQ payload built by `_send_to_dlq`. -/
structure DlqMessage where
  original_message : Message
  error : String
  error_type : String
  timestamp : ℤ
  consumer_group : String
  retry_count : Nat
deriving DecidableEq, Repr

/-- `self.config.dlq_topic or f"{message['topic']}-dlq"`: Python `or`
falls through on `None` and on the empty string. -/
def dlqTopicFor (cfg : ConsumerConfig) (message : Message) : String :=
  match cfg.dlq_topic with
  | some t => if t = "" then message.topic ++ "-dlq" else t
  | none => message.topic ++ "-dlq"

/-- Observable side effects of batch processing. -/
inductive ConsumerEvent where
  | handleBatch (batch : List Message)
  | commit (offsets : List (TopicPartition × Nat))
  | errorHandlerCall (error : PyError) (message : Message)
  | dlqSend (topic : String) (value : DlqMessage) (key : Option String)
deriving DecidableEq, Repr

/-- `_send_to_dlq(message, error)` at wall-clock time `now`: the producer
send it issues (a failing send is caught inside this function and only
logged). -/
def _send_to_dlq (cfg : ConsumerConfig) (message : Message) (error : PyError)
    (now : ℤ) : ConsumerEvent :=
  ConsumerEvent.dlqSend (dlqTopicFor cfg message)
    { original_message := message
      error := error.message
      error_type := error.type_name
      timestamp := now
      consumer_group := cfg.consumer_group
      retry_count := message.retry_count.getD 0 + 1 }
    message.key

/-- `_handle_batch_error(batch, error)`: per message, call the error
handler then send to the DLQ when enabled (`self.dlq_producer` is
non-`None` exactly when `enable_dlq`, per `__init__`).  The surrounding
`try` swallows an error-handler exception for that message, skipping its
DLQ send; `errorHandlerRaises` says which messages make the error
handler raise. -/
def _handle_batch_error (cfg : ConsumerConfig) (batch : List Message)
    (error : PyError) (now : ℤ) (errorHandlerRaises : Message → Bool) :
    List ConsumerEvent :=
  batch.flatMap (fun msg =>
    ConsumerEvent.errorHandlerCall error msg ::
      (if errorHandlerRaises msg then []
       else if cfg.enable_dlq then [_send_to_dlq cfg msg error now] else []))

/-- `_process_batch(batch)`: events it issues, in order.  `handlerError`
is `none` when `self.message_handler(batch)` returns normally, `some e`
when it raises `e`.  A `CommitFailedError` is caught inside
`_commit_batch_offsets`, so the commit is still issued exactly once. -/
def _process_batch (cfg : ConsumerConfig) (batch : List Message)
    (handlerError : Option PyError) (now : ℤ)
    (errorHandlerRaises : Message → Bool) : List ConsumerEvent :=
  match handlerError with
  | none =>
      [ConsumerEvent.handleBatch batch,
       ConsumerEvent.commit (_commit_batch_offsets batch)]
  | some e =>
      ConsumerEvent.handleBatch batch ::
        _handle_batch_error cfg batch e now errorHandlerRaises

/-- The poll-loop state owned by the consumer: the open batch buffer,
the batches handed to `_process_batch` so far (in order), and
`last_batch_time`. -/
structure BatchState where
  batch_queue : List Message
  dispatched : List (List Message)
  last_batch_time : ℤ
deriving DecidableEq, Repr

/-- Consumer `__init__`: empty buffer at time `t0`. -/
def initBatchState (t0 : ℤ) : BatchState :=
  { batch_queue := [], dispatched := [], last_batch_time := t0 }

/-- `_flush_batch()` at wall-clock time `now`: copy, clear, dispatch. -/
def _flush_batch (s : BatchState) (now : ℤ) : BatchState :=
  if s.batch_queue.isEmpty then s
  else
    { batch_queue := []
      dispatched := s.dispatched ++ [s.batch_queue]
      last_batch_time := now }

/-- `_add_to_batch(record)` at wall-clock time `now`: append, then flush
once the buffer has reached `batch_size`. -/
def _add_to_batch (cfg : ConsumerConfig) (s : BatchState) (record : KafkaRecord)
    (now : ℤ) : BatchState :=
  let s2 := { s with batch_queue := s.batch_queue ++ [record.toMessage] }
  if cfg.batch_size ≤ s2.batch_queue.length then _flush_batch s2 now else s2

/-- `_check_batch_timeout()` at wall-clock time `now`: time-based flush
of a non-empty partial batch (`elapsed` is in milliseconds). -/
def _check_batch_timeout (cfg : ConsumerConfig) (s : BatchState) (now : ℤ) :
    BatchState :=
  if cfg.batch_timeout_ms ≤ (now - s.last_batch_time) * 1000 ∧
      ¬ s.batch_queue.isEmpty then
    _flush_batch s now
  else s

/-- One poll-loop operation touching the batch buffer: an append from
the poll loop, the idle timeout check, or the flush `stop()` performs. -/
inductive BatchStep (cfg : ConsumerConfig) : BatchState → BatchState → Prop where
  | add (s : BatchState) (record : KafkaRecord) (now : ℤ) :
      BatchStep cfg s (_add_to_batch cfg s record now)
  | checkTimeout (s : BatchState) (now : ℤ) :
      BatchStep cfg s (_check_batch_timeout cfg s now)
  | stopFlush (s : BatchState) (now : ℤ) :
      BatchStep cfg s (_flush_batch s now)

/-- Batch-buffer states reachable from a fresh consumer. -/
inductive BatchReach (cfg : ConsumerConfig) : BatchState → Prop where
  | init (t0 : ℤ) : BatchReach cfg (initBatchState t0)
  | step {s s2 : BatchState} : BatchReach cfg s → BatchStep cfg s s2 →
      BatchReach cfg s2

/-- The bookkeeping `start()` mutates: the running flag, the worker
threads appended to `processing_threads`, the lag-monitor threads
spawned, and the poll loops entered via `_consume_messages()`. -/
structure ConsumerRunState where
  running : Bool
  processing_threads : Nat
  lag_monitors : Nat
  poll_loops : Nat
deriving DecidableEq, Repr

/-- Consumer `__init__`: not running, nothing spawned. -/
def initRunState : ConsumerRunState :=
  { running := false, processing_threads := 0, lag_monitors := 0, poll_loops := 0 }

/-- `start()`: unconditionally sets `running`, spawns `num_workers`
worker threads plus one lag monitor, and enters the poll loop. -/
def start (cfg : ConsumerConfig) (s : ConsumerRunState) : ConsumerRunState :=
  { running := true
    processing_threads := s.processing_threads + cfg.num_workers
    lag_monitors := s.lag_monitors + 1
    poll_loops := s.poll_loops + 1 }

end OptimizedKafkaConsumer

/-- Breakers reachable from `__init__` through the public operations,
invoked at positive wall-clock times (`time.time()` is strictly
positive). -/
inductive ReachableBreaker : CircuitBreaker → Prop where
  | init (name : String) (ft : Nat) (rt : ℤ) (st : Nat) (frt : ℚ) (ws : Nat) :
      ReachableBreaker (CircuitBreaker.init name ft rt st frt ws)
  | call {b : CircuitBreaker} {α : Type} (now : ℤ) (op : OpBehavior α)
      (fb : Option α) : ReachableBreaker b → 0 < now →
      ReachableBreaker ((b.call now op fb).breaker)
  | query {b : CircuitBreaker} (now : ℤ) : ReachableBreaker b →
      ReachableBreaker (b.state now).2
  | reset {b : CircuitBreaker} : ReachableBreaker b →
      ReachableBreaker b.reset

/-! ## Circuit breaker lemmas -/

/-- Iterated failing calls: `call` with an operation that raises the
expected exception at each listed wall-clock time. -/
def failSeq {α : Type} (b : CircuitBreaker) (times : List ℤ) (err : String)
    (fb : Option α) : CircuitBreaker :=
  times.foldl (fun bb t => (bb.call t (OpBehavior.raises err) fb).breaker) b

lemma state_snd_of_not_open {b : CircuitBreaker} {now : ℤ}
    (h : b._state ≠ CircuitState.OPEN) : b.state now = (b._state, b) := by
  unfold CircuitBreaker.state
  rw [if_neg]
  rintro ⟨h1, -⟩
  exact h h1

lemma state_snd_of_no_reset {b : CircuitBreaker} {now : ℤ}
    (h : b._should_attempt_reset now = false) : b.state now = (b._state, b) := by
  unfold CircuitBreaker.state
  rw [if_neg]
  rintro ⟨-, h2⟩
  rw [h] at h2
  exact Bool.false_ne_true h2

lemma state_of_open_reset {b : CircuitBreaker} {now : ℤ}
    (h1 : b._state = CircuitState.OPEN)
    (h2 : b._should_attempt_reset now = true) :
    b.state now = (CircuitState.HALF_OPEN, b._transition_to_half_open) := by
  unfold CircuitBreaker.state
  rw [if_pos ⟨h1, h2⟩]
  simp [CircuitBreaker._transition_to_half_open]

lemma state_rt (b : CircuitBreaker) (now : ℤ) :
    (b.state now).2.recovery_timeout = b.recovery_timeout := by
  unfold CircuitBreaker.state
  split <;> simp [CircuitBreaker._transition_to_half_open]

lemma state_ft (b : CircuitBreaker) (now : ℤ) :
    (b.state now).2.failure_threshold = b.failure_threshold := by
  unfold CircuitBreaker.state
  split <;> simp [CircuitBreaker._transition_to_half_open]

lemma on_failure_lft (b : CircuitBreaker) (e : String) (d now : ℤ) :
    (b._on_failure e d now).last_failure_time = some now := by
  unfold CircuitBreaker._on_failure
  cases b._state <;>
    simp [CircuitBreaker._transition_to_open] <;> split <;>
    simp [CircuitBreaker._transition_to_open]

lemma on_failure_rt (b : CircuitBreaker) (e : String) (d now : ℤ) :
    (b._on_failure e d now).recovery_timeout = b.recovery_timeout := by
  unfold CircuitBreaker._on_failure
  cases b._state <;>
    simp [CircuitBreaker._transition_to_open] <;> split <;>
    simp [CircuitBreaker._transition_to_open]

lemma on_failure_ft (b : CircuitBreaker) (e : String) (d now : ℤ) :
    (b._on_failure e d now).failure_threshold = b.failure_threshold := by
  unfold CircuitBreaker._on_failure
  cases b._state <;>
    simp [CircuitBreaker._transition_to_open] <;> split <;>
    simp [CircuitBreaker._transition_to_open]

lemma on_failure_state_ne_half_open (b : CircuitBreaker) (e : String) (d now : ℤ) :
    (b._on_failure e d now)._state ≠ CircuitState.HALF_OPEN := by
  unfold CircuitBreaker._on_failure
  cases b._state <;>
    simp [CircuitBreaker._transition_to_open] <;> split <;>
    simp [CircuitBreaker._transition_to_open]

lemma should_reset_self {b : CircuitBreaker} {now : ℤ}
    (h : b.last_failure_time = some now) (hrt : 0 < b.recovery_timeout) :
    b._should_attempt_reset now = false := by
  unfold CircuitBreaker._should_attempt_reset
  rw [h]
  simp only [sub_self, Bool.and_eq_false_imp, decide_eq_true_eq, decide_eq_false_iff_not]
  intro
  omega

/-- With a positive `recovery_timeout`, a failing call records the
failure via `_on_failure` on the state-checked breaker (the trailing
`self.state == HALF_OPEN` re-check can never hold, so it leaves the
breaker untouched), and an OPEN breaker only records a rejection. -/
lemma call_raises_breaker {α : Type} {b : CircuitBreaker} {now : ℤ}
    {e : String} {fb : Option α} (hrt : 0 < b.recovery_timeout) :
    (b.call now (OpBehavior.raises e) fb).breaker =
      (if (b.state now).1 = CircuitState.OPEN
       then { (b.state now).2 with
              metrics := (b.state now).2.metrics.record_rejection }
       else (b.state now).2._on_failure e 0 now) := by
  unfold CircuitBreaker.call
  by_cases hq : (b.state now).1 = CircuitState.OPEN
  · rw [if_pos hq, if_pos hq]
    cases fb <;> rfl
  · rw [if_neg hq, if_neg hq]
    dsimp only
    have hb2 : ((b.state now).2._on_failure e 0 now).last_failure_time = some now :=
      on_failure_lft _ _ _ _
    have hrt2 : 0 < ((b.state now).2._on_failure e 0 now).recovery_timeout := by
      rw [on_failure_rt, state_rt]; exact hrt
    have hq2 := state_snd_of_no_reset (should_reset_self hb2 hrt2)
    rw [hq2]
    rw [if_neg (on_failure_state_ne_half_open _ _ _ _)]


lemma on_failure_of_closed {b : CircuitBreaker} (e : String) (d now : ℤ)
    (h : b._state = CircuitState.CLOSED) :
    (b._on_failure e d now)._state = CircuitState.OPEN ∨
    ((b._on_failure e d now)._state = CircuitState.CLOSED ∧
     (b._on_failure e d now).failure_count = b.failure_count + 1 ∧
     ¬ b.failure_threshold ≤ b.failure_count + 1) := by
  unfold CircuitBreaker._on_failure
  dsimp only
  rw [h]
  dsimp only
  split
  · left
    simp [CircuitBreaker._transition_to_open]
  · right
    rename_i hcond
    rw [not_or] at hcond
    exact ⟨rfl, rfl, hcond.1⟩

lemma on_failure_of_half_open {b : CircuitBreaker} {e : String} {d now : ℤ}
    (h : b._state = CircuitState.HALF_OPEN) :
    (b._on_failure e d now)._state = CircuitState.OPEN := by
  unfold CircuitBreaker._on_failure
  dsimp only
  rw [h]
  dsimp only
  simp [CircuitBreaker._transition_to_open]

lemma call_rejected {α : Type} {b : CircuitBreaker} {now : ℤ}
    {op : OpBehavior α} {fb : Option α} (hst : b._state = CircuitState.OPEN)
    (hsr : b._should_attempt_reset now = false) :
    b.call now op fb =
      { result :=
          (match fb with
           | some v => CallResult.fallbackValue v
           | none => CallResult.circuitOpenError)
        invoked := false
        breaker := { b with metrics := b.metrics.record_rejection } } := by
  unfold CircuitBreaker.call
  rw [state_snd_of_no_reset hsr]
  dsimp only
  rw [if_pos hst]
  cases fb <;> rfl

lemma call_raises_rt {α : Type} {b : CircuitBreaker} {now : ℤ} {e : String}
    {fb : Option α} (hrt : 0 < b.recovery_timeout) :
    ((b.call now (OpBehavior.raises e) fb).breaker).recovery_timeout =
      b.recovery_timeout := by
  rw [call_raises_breaker hrt]
  split
  · simp [state_rt]
  · rw [on_failure_rt, state_rt]

/-- Invariant carried through a burst of failing calls: with `n` failing
calls still to come, the breaker is already OPEN, or is HALF_OPEN with a
call to come, or is CLOSED with enough calls to come to reach
`failure_threshold`. -/
def FailInv (b : CircuitBreaker) (n : Nat) : Prop :=
  b._state = CircuitState.OPEN ∨
  (b._state = CircuitState.HALF_OPEN ∧ 1 ≤ n) ∨
  (b._state = CircuitState.CLOSED ∧
   b.failure_threshold ≤ b.failure_count + n ∧ 1 ≤ n)

lemma fail_step {α : Type} {b : CircuitBreaker} {now : ℤ} {e : String}
    {fb : Option α} (hrt : 0 < b.recovery_timeout) (n : Nat)
    (h : FailInv b (n + 1)) :
    FailInv ((b.call now (OpBehavior.raises e) fb).breaker) n := by
  rw [FailInv] at h ⊢
  rw [call_raises_breaker hrt]
  rcases h with h | ⟨h, -⟩ | ⟨h, hcnt, -⟩
  · by_cases hres : b._should_attempt_reset now = true
    · rw [state_of_open_reset h hres]
      rw [if_neg (by simp)]
      left
      exact on_failure_of_half_open (by simp [CircuitBreaker._transition_to_half_open])
    · rw [state_snd_of_no_reset (Bool.eq_false_iff.mpr hres)]
      dsimp only
      rw [if_pos h]
      left
      exact h
  · rw [state_snd_of_not_open (by simp [h])]
    dsimp only
    rw [if_neg (by simp [h])]
    left
    exact on_failure_of_half_open h
  · rw [state_snd_of_not_open (by simp [h])]
    dsimp only
    rw [if_neg (by simp [h])]
    rcases on_failure_of_closed e 0 now h with
      hopen | ⟨hc, hcount, hlt⟩
    · left
      exact hopen
    · right; right
      refine ⟨hc, ?_, by omega⟩
    
      rw [hcount, on_failure_ft]
      omega

lemma failSeq_open {α : Type} (err : String) (fb : Option α) :
    ∀ (times : List ℤ) (b : CircuitBreaker), 0 < b.recovery_timeout →
      FailInv b times.length →
      (failSeq b times err fb)._state = CircuitState.OPEN := by
  intro times
  induction times with
  | nil =>
      intro b _ h
      rcases h with h | ⟨-, h⟩ | ⟨-, -, h⟩
      · exact h
      · simp at h
      · simp at h
  | cons t ts ih =>
      intro b hrt h
      have hstep : FailInv ((b.call t (OpBehavior.raises err) fb).breaker)
          ts.length :=
        fail_step hrt ts.length (by simpa using h)
      have hrt2 : 0 < ((b.call t (OpBehavior.raises err) fb).breaker).recovery_timeout := by
        rw [call_raises_rt hrt]
        exact hrt
      exact ih _ hrt2 hstep

/-- Iterated successful calls: `call` with an operation returning `v` at
each listed wall-clock time. -/
def succSeq {α : Type} (b : CircuitBreaker) (times : List ℤ) (v : α)
    (fb : Option α) : CircuitBreaker :=
  times.foldl (fun bb t => (bb.call t (OpBehavior.ok v) fb).breaker) b

lemma call_ok {α : Type} {b : CircuitBreaker} {now : ℤ} {v : α}
    {fb : Option α} (h : b._state ≠ CircuitState.OPEN) :
    b.call now (OpBehavior.ok v) fb =
      { result := CallResult.value v, invoked := true,
        breaker := b._on_success 0 now } := by
  unfold CircuitBreaker.call
  rw [state_snd_of_not_open h]
  dsimp only
  rw [if_neg h]

lemma on_success_of_closed {b : CircuitBreaker} {d now : ℤ}
    (h : b._state = CircuitState.CLOSED) :
    (b._on_success d now)._state = CircuitState.CLOSED ∧
    (b._on_success d now).failure_count = 0 := by
  unfold CircuitBreaker._on_success
  simp [h]

lemma on_success_of_half_open {b : CircuitBreaker} (d now : ℤ)
    (h : b._state = CircuitState.HALF_OPEN) :
    ((b._on_success d now)._state = CircuitState.CLOSED ∧
     (b._on_success d now).failure_count = 0) ∨
    ((b._on_success d now)._state = CircuitState.HALF_OPEN ∧
     (b._on_success d now).success_count = b.success_count + 1 ∧
     ¬ b.success_threshold ≤ b.success_count + 1) := by
  unfold CircuitBreaker._on_success
  rw [h]
  by_cases hc : b.success_threshold ≤ b.success_count + 1
  · left
    simp [hc, CircuitBreaker._transition_to_closed]
  · right
    simp [hc]

lemma on_success_st (b : CircuitBreaker) (d now : ℤ) :
    (b._on_success d now).success_threshold = b.success_threshold := by
  unfold CircuitBreaker._on_success
  cases b._state <;>
    simp [CircuitBreaker._transition_to_closed] <;> split <;>
    simp [CircuitBreaker._transition_to_closed]

/-- Invariant carried through consecutive successful calls: with `n`
successes still to come, the breaker has already closed with a zeroed
failure count, or is HALF_OPEN with enough successes to come to reach
`success_threshold`. -/
def SuccInv (b : CircuitBreaker) (n : Nat) : Prop :=
  (b._state = CircuitState.CLOSED ∧ b.failure_count = 0) ∨
  (b._state = CircuitState.HALF_OPEN ∧
   b.success_threshold ≤ b.success_count + n ∧ 1 ≤ n)

lemma succ_step {α : Type} {b : CircuitBreaker} {now : ℤ} {v : α}
    {fb : Option α} (n : Nat) (h : SuccInv b (n + 1)) :
    SuccInv ((b.call now (OpBehavior.ok v) fb).breaker) n := by
  rw [SuccInv] at h ⊢
  rcases h with ⟨h, hfc⟩ | ⟨h, hsc, -⟩
  · rw [call_ok (by simp [h])]
    dsimp only
    left
    exact on_success_of_closed h
  · rw [call_ok (by simp [h])]
    dsimp only
    rcases on_success_of_half_open 0 now h with hc | ⟨hh, hcount, hlt⟩
    · left
      exact hc
    · right
      refine ⟨hh, ?_, by omega⟩
      rw [hcount, on_success_st]
      omega

lemma succSeq_closed {α : Type} (v : α) (fb : Option α) :
    ∀ (times : List ℤ) (b : CircuitBreaker), SuccInv b times.length →
      (succSeq b times v fb)._state = CircuitState.CLOSED ∧
      (succSeq b times v fb).failure_count = 0 := by
  intro times
  induction times with
  | nil =>
      intro b h
      rcases h with ⟨h1, h2⟩ | ⟨-, -, h⟩
      · exact ⟨h1, h2⟩
      · simp at h
  | cons t ts ih =>
      intro b h
      have hstep : SuccInv ((b.call t (OpBehavior.ok v) fb).breaker)
          ts.length :=
        succ_step ts.length (by simpa using h)
      exact ih _ hstep

/-- C1: starting from CLOSED, a sequence of `N ≥ failure_threshold`
consecutive calls whose wrapped operation raises the configured expected
exception leaves the breaker OPEN by the Nth failure; and every `call()`
attempted while OPEN before `recovery_timeout` has elapsed since the
last failure does not invoke the wrapped operation — it returns the
fallback result if a fallback is configured, else raises
`CircuitBreakerError`. -/
theorem breaker_opens_by_nth_failure_and_open_rejects :
    (∀ {α : Type} (b : CircuitBreaker) (times : List ℤ) (err : String)
       (fb : Option α),
      b._state = CircuitState.CLOSED → b.failure_count = 0 →
      0 < b.recovery_timeout → 1 ≤ b.failure_threshold →
      b.failure_threshold ≤ times.length →
      (failSeq b times err fb)._state = CircuitState.OPEN) ∧
    (∀ {α : Type} (b : CircuitBreaker) (now : ℤ) (op : OpBehavior α)
       (fb : Option α),
      b._state = CircuitState.OPEN →
      (∀ t, b.last_failure_time = some t → now - t < b.recovery_timeout) →
      (b.call now op fb).invoked = false ∧
      (b.call now op fb).result =
        (match fb with
         | some v => CallResult.fallbackValue v
         | none => CallResult.circuitOpenError)) := by
  constructor
  · intro α b times err fb hst hfc hrt hft hlen
    exact failSeq_open err fb times b hrt
      (Or.inr (Or.inr ⟨hst, by omega, by omega⟩))
  · intro α b now op fb hst hbefore
    have hsr : b._should_attempt_reset now = false := by
      unfold CircuitBreaker._should_attempt_reset
      cases hl : b.last_failure_time with
      | none => rfl
      | some t =>
          have hlt := hbefore t hl
          have h2 : ¬ b.recovery_timeout ≤ now - t := by omega
          simp [h2]
    rw [call_rejected hst hsr]
    exact ⟨rfl, rfl⟩

/-- Breaker used by concrete witnesses: `failure_threshold = 3`,
`recovery_timeout = 60`, `success_threshold = 2`, a failure-rate
threshold of `2` that can never fire, window 100. -/
def bWit : CircuitBreaker := CircuitBreaker.init "db" 3 60 2 2 100

/-- `bWit` after three failing calls: OPEN, last failure at `t = 12`. -/
def bWitOpen : CircuitBreaker := failSeq bWit [10, 11, 12] "timeout" (none : Option Nat)

/-- Witness for C1 at a concrete breaker: three failures with
`failure_threshold = 3` leave it OPEN, and a call 38 seconds after the
last failure (before the 60-second recovery timeout) is rejected without
invoking the operation. -/
theorem breaker_opens_by_nth_failure_and_open_rejects_witness :
    bWitOpen._state = CircuitState.OPEN ∧
    ((bWitOpen.call 50 (OpBehavior.ok (7 : Nat)) none).invoked = false ∧
     (bWitOpen.call 50 (OpBehavior.ok (7 : Nat)) none).result =
       CallResult.circuitOpenError) := by
  constructor
  · exact breaker_opens_by_nth_failure_and_open_rejects.1 bWit [10, 11, 12]
      "timeout" none (by decide) (by decide) (by decide) (by decide) (by decide)
  · exact breaker_opens_by_nth_failure_and_open_rejects.2 bWitOpen 50
      (OpBehavior.ok 7) none (by decide)
      (by
        intro t ht
        rw [show bWitOpen.last_failure_time = some (12 : ℤ) by decide] at ht
        have h12 := Option.some.inj ht
        rw [show bWitOpen.recovery_timeout = (60 : ℤ) by decide]
        omega)

/-- C2: an OPEN breaker with a recorded (nonzero) last failure time is
moved to HALF_OPEN by the first state query at or past the recovery
deadline — lazily, with both counters reset, and only once: a repeated
query leaves the breaker unchanged.  A single failure of the wrapped
operation while HALF_OPEN immediately transitions the breaker back to
OPEN. -/
theorem open_half_open_lazy_once_and_failure_reopens :
    (∀ (b : CircuitBreaker) (now t : ℤ),
      b._state = CircuitState.OPEN → b.last_failure_time = some t → t ≠ 0 →
      b.recovery_timeout ≤ now - t →
      b.state now = (CircuitState.HALF_OPEN, b._transition_to_half_open) ∧
      (b._transition_to_half_open).success_count = 0 ∧
      (b._transition_to_half_open).failure_count = 0 ∧
      (b._transition_to_half_open).state now =
        (CircuitState.HALF_OPEN, b._transition_to_half_open)) ∧
    (∀ {α : Type} (b : CircuitBreaker) (now : ℤ) (e : String) (fb : Option α),
      b._state = CircuitState.HALF_OPEN → 0 < b.recovery_timeout →
      ((b.call now (OpBehavior.raises e) fb).breaker)._state =
        CircuitState.OPEN) := by
  constructor
  · intro b now t hst hlft ht hle
    have hsr : b._should_attempt_reset now = true := by
      unfold CircuitBreaker._should_attempt_reset
      rw [hlft]
      simp [ht, hle]
    refine ⟨state_of_open_reset hst hsr, rfl, rfl, ?_⟩
    exact state_snd_of_not_open (by simp [CircuitBreaker._transition_to_half_open])
  · intro α b now e fb hst hrt
    rw [call_raises_breaker hrt]
    rw [state_snd_of_not_open (by simp [hst])]
    dsimp only
    rw [if_neg (by simp [hst])]
    exact on_failure_of_half_open hst

/-- `bWitOpen` probed at time 100 (88 seconds after its last failure):
the lazily transitioned HALF_OPEN breaker. -/
def bWitHalf : CircuitBreaker := bWitOpen._transition_to_half_open

/-- Witness for C2 at a concrete breaker: `bWitOpen` (last failure at
12, timeout 60) queried at time 100 lazily becomes HALF_OPEN exactly
once with zeroed counters, and one failing call from HALF_OPEN reopens
it. -/
theorem open_half_open_lazy_once_and_failure_reopens_witness :
    (bWitOpen.state 100 = (CircuitState.HALF_OPEN, bWitHalf) ∧
     bWitHalf.success_count = 0 ∧ bWitHalf.failure_count = 0 ∧
     bWitHalf.state 100 = (CircuitState.HALF_OPEN, bWitHalf)) ∧
    ((bWitHalf.call 101 (OpBehavior.raises "timeout") (none : Option Nat)).breaker)._state =
      CircuitState.OPEN := by
  constructor
  · exact open_half_open_lazy_once_and_failure_reopens.1 bWitOpen 100 12
      (by decide) (by decide) (by decide) (by decide)
  · exact open_half_open_lazy_once_and_failure_reopens.2 bWitHalf 101 "timeout"
      none (by decide) (by decide)

/-- C3: from HALF_OPEN with a zeroed success counter,
`success_threshold` consecutive successful calls through `call()` leave
the breaker CLOSED with `failure_count = 0`. -/
theorem half_open_closes_after_success_threshold :
    ∀ {α : Type} (b : CircuitBreaker) (times : List ℤ) (v : α)
      (fb : Option α),
      b._state = CircuitState.HALF_OPEN → b.success_count = 0 →
      1 ≤ b.success_threshold → b.success_threshold ≤ times.length →
      (succSeq b times v fb)._state = CircuitState.CLOSED ∧
      (succSeq b times v fb).failure_count = 0 := by
  intro α b times v fb hst hsc hst1 hlen
  exact succSeq_closed v fb times b (Or.inr ⟨hst, by omega, by omega⟩)

/-- Witness for C3 at a concrete breaker: two successful calls
(`success_threshold = 2`) from HALF_OPEN close `bWitHalf` and zero its
failure count. -/
theorem half_open_closes_after_success_threshold_witness :
    (succSeq bWitHalf [110, 120] (7 : Nat) none)._state = CircuitState.CLOSED ∧
    (succSeq bWitHalf [110, 120] (7 : Nat) none).failure_count = 0 :=
  half_open_closes_after_success_threshold bWitHalf [110, 120] 7 none
    (by decide) (by decide) (by decide) (by decide)

/-- C5: in HALF_OPEN with a fallback configured, a call whose wrapped
operation raises the expected exception re-raises it instead of
returning the fallback value — `call` consults `self.state` only after
`_on_failure` has already moved HALF_OPEN to OPEN, so (for any positive
`recovery_timeout`) the fallback branch is dead code. -/
theorem half_open_failure_reraises_despite_fallback :
    ∀ {α : Type} (b : CircuitBreaker) (now : ℤ) (e : String) (v : α),
      b._state = CircuitState.HALF_OPEN → 0 < b.recovery_timeout →
      (b.call now (OpBehavior.raises e) (some v)).result =
        CallResult.opError e := by
  intro α b now e v hst hrt
  unfold CircuitBreaker.call
  rw [state_snd_of_not_open (by simp [hst])]
  dsimp only
  rw [if_neg (by simp [hst])]
  have hb2lft := on_failure_lft b e 0 now
  have hrt2 : 0 < (b._on_failure e 0 now).recovery_timeout := by
    rw [on_failure_rt]
    exact hrt
  rw [state_snd_of_no_reset (should_reset_self hb2lft hrt2)]
  rw [if_neg (on_failure_state_ne_half_open _ _ _ _)]

/-- Witness for C5 at a concrete breaker: `bWitHalf` (HALF_OPEN, timeout
60) with fallback value 42 re-raises the expected exception. -/
theorem half_open_failure_reraises_despite_fallback_witness :
    (bWitHalf.call 101 (OpBehavior.raises "timeout") (some (42 : Nat))).result =
      CallResult.opError "timeout" :=
  half_open_failure_reraises_despite_fallback bWitHalf 101 "timeout" 42
    (by decide) (by decide)

lemma state_fst_eq (b : CircuitBreaker) (now : ℤ) :
    (b.state now).1 = (b.state now).2._state := by
  unfold CircuitBreaker.state
  split <;> rfl

lemma state_lft (b : CircuitBreaker) (now : ℤ) :
    (b.state now).2.last_failure_time = b.last_failure_time := by
  unfold CircuitBreaker.state
  split <;> simp [CircuitBreaker._transition_to_half_open]

lemma state_snd_cases (b : CircuitBreaker) (now : ℤ) :
    (b.state now).2 = b ∨ (b.state now).2._state = CircuitState.HALF_OPEN := by
  unfold CircuitBreaker.state
  split
  · right
    simp [CircuitBreaker._transition_to_half_open]
  · left
    rfl

lemma on_success_state_ne_open {b : CircuitBreaker} {d now : ℤ}
    (h : b._state ≠ CircuitState.OPEN) :
    (b._on_success d now)._state ≠ CircuitState.OPEN := by
  unfold CircuitBreaker._on_success
  cases hs : b._state with
  | CLOSED => simp [hs]
  | OPEN => exact absurd hs h
  | HALF_OPEN =>
      dsimp only
      rw [if_pos rfl]
      split <;> simp [CircuitBreaker._transition_to_closed]

lemma call_preserves_recoverable {α : Type} (b : CircuitBreaker) (now : ℤ)
    (op : OpBehavior α) (fb : Option α) (hnow : 0 < now)
    (ih : b._state = CircuitState.OPEN →
      ∃ t, b.last_failure_time = some t ∧ 0 < t) :
    ((b.call now op fb).breaker)._state = CircuitState.OPEN →
      ∃ t, ((b.call now op fb).breaker).last_failure_time = some t ∧ 0 < t := by
  intro hopen
  unfold CircuitBreaker.call at hopen ⊢
  by_cases hq : (b.state now).1 = CircuitState.OPEN
  · rw [if_pos hq] at hopen ⊢
    have hb : (b.state now).2 = b := by
      rcases state_snd_cases b now with h | h
      · exact h
      · rw [state_fst_eq] at hq
        rw [hq] at h
        exact absurd h (by simp)
    have hbst : b._state = CircuitState.OPEN := by
      rw [state_fst_eq, hb] at hq
      exact hq
    obtain ⟨t, hlft, ht⟩ := ih hbst
    cases fb <;> simp [hb, hlft] <;> exact ht
  · rw [if_neg hq] at hopen ⊢
    rw [state_fst_eq] at hq
    cases op with
    | ok v =>
        exact absurd hopen (on_success_state_ne_open hq)
    | raises e =>
        dsimp only
        refine ⟨now, ?_, hnow⟩
        split
        · cases fb <;> (dsimp only; rw [state_lft, on_failure_lft])
        · dsimp only
          rw [state_lft, on_failure_lft]
    | raisesOther e =>
        exact absurd hopen hq

/-- C10: on every reachable breaker, OPEN implies a recorded, strictly
positive `last_failure_time` — every transition to OPEN happens inside
`_on_failure`, which stamps `last_failure_time` first — so the lazy
OPEN→HALF_OPEN check succeeds once `recovery_timeout` has elapsed and
the breaker cannot be stuck OPEN with an undefined recovery deadline. -/
theorem open_has_positive_last_failure_time :
    ∀ (b : CircuitBreaker), ReachableBreaker b →
      b._state = CircuitState.OPEN →
      ∃ t, b.last_failure_time = some t ∧ 0 < t ∧
        b._should_attempt_reset (t + b.recovery_timeout) = true := by
  have key : ∀ (b : CircuitBreaker), ReachableBreaker b →
      b._state = CircuitState.OPEN →
      ∃ t, b.last_failure_time = some t ∧ 0 < t := by
    intro b hreach
    induction hreach with
    | init name ft rt st frt ws =>
        intro h
        simp [CircuitBreaker.init] at h
    | call now op fb hr hnow ih =>
        exact call_preserves_recoverable _ now op fb hnow ih
    | query now hr ih =>
        intro h
        rcases state_snd_cases _ now with heq | heq
        · rw [heq] at h ⊢
          exact ih h
        · rw [heq] at h
          exact absurd h (by simp)
    | reset hr ih =>
        intro h
        simp [CircuitBreaker.reset, CircuitBreaker._transition_to_closed] at h
  intro b hreach hopen
  obtain ⟨t, hlft, ht⟩ := key b hreach hopen
  refine ⟨t, hlft, ht, ?_⟩
  unfold CircuitBreaker._should_attempt_reset
  rw [hlft]
  have h1 : t ≠ 0 := by omega
  have h2 : b.recovery_timeout ≤ t + b.recovery_timeout - t := by omega
  simp [h1, h2]

/-- Witness for C10: `bWitOpen` is reachable (three failing calls at
positive times from a fresh breaker), is OPEN, and carries a recovery
deadline that fires. -/
theorem open_has_positive_last_failure_time_witness :
    ∃ t, bWitOpen.last_failure_time = some t ∧ 0 < t ∧
      bWitOpen._should_attempt_reset (t + bWitOpen.recovery_timeout) = true := by
  have h0 : ReachableBreaker bWit :=
    ReachableBreaker.init "db" 3 60 2 2 100
  have h1 : ReachableBreaker ((bWit.call 10 (OpBehavior.raises "timeout")
      (none : Option Nat)).breaker) :=
    ReachableBreaker.call 10 _ _ h0 (by decide)
  have h2 : ReachableBreaker ((((bWit.call 10 (OpBehavior.raises "timeout")
      (none : Option Nat)).breaker).call 11 (OpBehavior.raises "timeout")
      (none : Option Nat)).breaker) :=
    ReachableBreaker.call 11 _ _ h1 (by decide)
  have h3 : ReachableBreaker bWitOpen :=
    ReachableBreaker.call 12 (OpBehavior.raises "timeout") (none : Option Nat)
      h2 (by decide)
  exact open_has_positive_last_failure_time bWitOpen h3 (by decide)

/-! ## C4: rolling-window metrics -/

/-- One recorded call: `record_success` or `record_failure` with its
arguments. -/
inductive RecOp where
  | succ (duration now : ℤ)
  | fail (error : String) (duration now : ℤ)
deriving DecidableEq, Repr

/-- The window entry a recorded call appends. -/
def RecOp.entry : RecOp → CallEntry
  | RecOp.succ d t => { success := true, timestamp := t, duration := d, error := none }
  | RecOp.fail e d t => { success := false, timestamp := t, duration := d, error := some e }

/-- Whether a recorded call was a failure. -/
def RecOp.isFailure (r : RecOp) : Bool := !r.entry.success

/-- Apply one recorded call to the metrics. -/
def applyRec (m : CircuitBreakerMetrics) : RecOp → CircuitBreakerMetrics
  | RecOp.succ d t => m.record_success d t
  | RecOp.fail e d t => m.record_failure e d t

/-- Apply a sequence of recorded calls to the metrics. -/
def applyRecs (m : CircuitBreakerMetrics) (ops : List RecOp) : CircuitBreakerMetrics :=
  ops.foldl applyRec m

lemma applyRec_calls (m : CircuitBreakerMetrics) (r : RecOp) :
    (applyRec m r).calls = dequePush m.window_size m.calls r.entry := by
  cases r <;> rfl

lemma applyRec_ws (m : CircuitBreakerMetrics) (r : RecOp) :
    (applyRec m r).window_size = m.window_size := by
  cases r <;> rfl

lemma applyRec_total (m : CircuitBreakerMetrics) (r : RecOp) :
    (applyRec m r).total_calls = m.total_calls + 1 := by
  cases r <;> rfl

lemma dequePush_length (w : Nat) (xs : List CallEntry) (x : CallEntry) :
    (dequePush w xs x).length = min (xs.length + 1) w := by
  unfold dequePush
  simp only [List.length_drop, List.length_append, List.length_cons,
    List.length_nil]
  omega

lemma dequePush_eq_drop (w : Nat) (xs : List CallEntry) (x : CallEntry) :
    dequePush w xs x = (xs ++ [x]).drop ((xs.length + 1) - w) := by
  unfold dequePush
  simp

/-- The window after a sequence of records, starting from a window no
longer than its capacity: the most recent `window_size` entries. -/
lemma applyRecs_calls (w : Nat) :
    ∀ (ops : List RecOp) (m : CircuitBreakerMetrics),
      m.window_size = w → m.calls.length ≤ w →
      (applyRecs m ops).calls =
        (m.calls ++ ops.map RecOp.entry).drop
          ((m.calls.length + ops.length) - w) ∧
      (applyRecs m ops).window_size = w ∧
      (applyRecs m ops).total_calls = m.total_calls + ops.length := by
  intro ops
  induction ops with
  | nil =>
      intro m hw hlen
      refine ⟨?_, hw, rfl⟩
      rw [List.map_nil, List.append_nil]
      rw [show m.calls.length + [].length - w = 0 by simp; omega]
      rfl
  | cons r ops ih =>
      intro m hw hlen
      have hws2 : (applyRec m r).window_size = w := by rw [applyRec_ws, hw]
      have hcalls2 : (applyRec m r).calls =
          (m.calls ++ [r.entry]).drop ((m.calls.length + 1) - w) := by
        rw [applyRec_calls, hw, dequePush_eq_drop]
      have hlen2 : (applyRec m r).calls.length ≤ w := by
        rw [applyRec_calls, hw, dequePush_length]
        omega
      obtain ⟨h1, h2, h3⟩ := ih (applyRec m r) hws2 hlen2
      refine ⟨?_, h2, ?_⟩
      · rw [show applyRecs m (r :: ops) = applyRecs (applyRec m r) ops from rfl]
        rw [h1, hcalls2]
        have hlendrop : ((m.calls ++ [r.entry]).drop
            ((m.calls.length + 1) - w)).length = min (m.calls.length + 1) w := by
          simp only [List.length_drop, List.length_append, List.length_cons,
            List.length_nil]
          omega
        rw [hlendrop]
        rw [← List.drop_append_of_le_length
          (show m.calls.length + 1 - w ≤ (m.calls ++ [r.entry]).length by
            simp only [List.length_append, List.length_cons, List.length_nil]
            omega)]
        rw [List.drop_drop]
        have harith : m.calls.length + 1 - w +
            (min (m.calls.length + 1) w + ops.length - w) =
            m.calls.length + (r :: ops).length - w := by
          simp only [List.length_cons]
          omega
        rw [harith]
        simp [List.append_assoc]
      · rw [show applyRecs m (r :: ops) = applyRecs (applyRec m r) ops from rfl]
        rw [h3, applyRec_total]
        simp only [List.length_cons]
        omega

/-- C4: starting from a fresh window of capacity `W ≥ 1`, after any
non-empty sequence of recorded calls, `total_calls` counts them all and
`get_failure_rate()` is exactly `F / min(W, total_calls)` where `F`
counts the failures among the last `min(W, total_calls)` recorded calls;
recording into a full window drops the oldest entry and appends the new
one; and the window length never exceeds `W`. -/
theorem failure_rate_window_exact :
    (∀ (W : Nat) (ops : List RecOp), 1 ≤ W → ops ≠ [] →
      (applyRecs (CircuitBreakerMetrics.init W) ops).total_calls = ops.length ∧
      (applyRecs (CircuitBreakerMetrics.init W) ops).get_failure_rate =
        (((ops.drop (ops.length - W)).countP RecOp.isFailure : ℚ)) /
          ((min W ops.length : ℚ))) ∧
    (∀ (m : CircuitBreakerMetrics) (r : RecOp),
      m.calls.length = m.window_size → 1 ≤ m.window_size →
      (applyRec m r).calls = m.calls.drop 1 ++ [r.entry]) ∧
    (∀ (W : Nat) (ops : List RecOp),
      (applyRecs (CircuitBreakerMetrics.init W) ops).calls.length ≤ W) := by
  refine ⟨?_, ?_, ?_⟩
  · intro W ops hW hops
    obtain ⟨hc, -, ht⟩ := applyRecs_calls W ops (CircuitBreakerMetrics.init W)
      rfl (by simp [CircuitBreakerMetrics.init])
    have hn : 1 ≤ ops.length := List.length_pos.mpr hops
    have hc2 : (applyRecs (CircuitBreakerMetrics.init W) ops).calls =
        (ops.drop (ops.length - W)).map RecOp.entry := by
      rw [hc]
      simp only [CircuitBreakerMetrics.init, List.nil_append, List.length_nil,
        Nat.zero_add]
      exact (List.map_drop _ _ _).symm
    refine ⟨by simpa [CircuitBreakerMetrics.init] using ht, ?_⟩
    unfold CircuitBreakerMetrics.get_failure_rate
    rw [hc2]
    rw [if_neg (by
      simp only [List.isEmpty_iff]
      intro hnil
      have hlen := congrArg List.length hnil
      simp only [List.length_map, List.length_drop, List.length_nil] at hlen
      omega)]
    rw [List.countP_map]
    have hcount : List.countP ((fun c => !c.success) ∘ RecOp.entry)
        (ops.drop (ops.length - W)) =
        List.countP RecOp.isFailure (ops.drop (ops.length - W)) := rfl
    rw [hcount]
    have hlen2 : ((ops.drop (ops.length - W)).map RecOp.entry).length =
        min W ops.length := by
      simp only [List.length_map, List.length_drop]
      omega
    rw [hlen2, Rat.mkRat_eq_div]
    simp only [Int.cast_natCast, Nat.cast_min]
  · intro m r hlen hw
    rw [applyRec_calls, dequePush_eq_drop, hlen]
    rw [show m.window_size + 1 - m.window_size = 1 by omega]
    rw [List.drop_append_of_le_length (by omega)]
  · intro W ops
    obtain ⟨hc, -, -⟩ := applyRecs_calls W ops (CircuitBreakerMetrics.init W)
      rfl (by simp [CircuitBreakerMetrics.init])
    rw [hc]
    simp only [List.length_drop, List.length_append, List.length_map,
      CircuitBreakerMetrics.init, List.length_nil]
    omega

/-- Witness for C4 at a concrete window: capacity 2, records
fail-succeed-fail; the rate is the one failure among the last two over
2; pushing into the full window evicts the oldest entry; the length
bound holds. -/
theorem failure_rate_window_exact_witness :
    ((applyRecs (CircuitBreakerMetrics.init 2)
        [RecOp.fail "e" 0 1, RecOp.succ 0 2, RecOp.fail "e" 0 3]).total_calls = 3 ∧
     (applyRecs (CircuitBreakerMetrics.init 2)
        [RecOp.fail "e" 0 1, RecOp.succ 0 2, RecOp.fail "e" 0 3]).get_failure_rate =
       ((([RecOp.fail "e" 0 1, RecOp.succ 0 2, RecOp.fail "e" 0 3].drop
           (3 - 2)).countP RecOp.isFailure : ℚ)) / ((min 2 3 : ℚ))) ∧
    (applyRec (applyRecs (CircuitBreakerMetrics.init 2)
        [RecOp.fail "e" 0 1, RecOp.succ 0 2]) (RecOp.fail "e" 0 3)).calls =
      (applyRecs (CircuitBreakerMetrics.init 2)
        [RecOp.fail "e" 0 1, RecOp.succ 0 2]).calls.drop 1 ++
        [(RecOp.fail "e" 0 3).entry] ∧
    (applyRecs (CircuitBreakerMetrics.init 2)
        [RecOp.fail "e" 0 1, RecOp.succ 0 2, RecOp.fail "e" 0 3]).calls.length ≤ 2 :=
  ⟨failure_rate_window_exact.1 2
      [RecOp.fail "e" 0 1, RecOp.succ 0 2, RecOp.fail "e" 0 3]
      (by decide) (by decide),
   failure_rate_window_exact.2.1
      (applyRecs (CircuitBreakerMetrics.init 2)
        [RecOp.fail "e" 0 1, RecOp.succ 0 2]) (RecOp.fail "e" 0 3)
      (by decide) (by decide),
   failure_rate_window_exact.2.2 2
      [RecOp.fail "e" 0 1, RecOp.succ 0 2, RecOp.fail "e" 0 3]⟩

/-! ## C6-C9: consumer theorems -/

/-- `TopicPartition(msg['topic'], msg['partition'])` for a message. -/
def Message.tp (m : Message) : TopicPartition := (m.topic, m.partition)

/-- Within each topic-partition, offsets appear in non-decreasing order
along the batch — the order `consumer.poll` delivers them, since Kafka
yields each partition's records in offset order. -/
def PartitionOrdered (batch : List Message) : Prop :=
  batch.Pairwise (fun a b => a.tp = b.tp → a.offset ≤ b.offset)

instance (batch : List Message) : Decidable (PartitionOrdered batch) := by
  unfold PartitionOrdered
  infer_instance

/-- Largest offset carried by `batch` for partition `tp` (`0` if the
partition is absent). -/
def maxOffsetIn (batch : List Message) (tp : TopicPartition) : Nat :=
  ((batch.filter (fun m => decide (m.tp = tp))).map Message.offset).foldl max 0

lemma dictFind_dictInsert {K V : Type} [DecidableEq K]
    (kvs : List (K × V)) (k k2 : K) (v : V) :
    dictFind (dictInsert kvs k v) k2 =
      if k = k2 then some v else dictFind kvs k2 := by
  induction kvs with
  | nil => simp [dictInsert, dictFind]
  | cons p rest ih =>
      obtain ⟨k0, v0⟩ := p
      by_cases h0 : k0 = k
      · subst h0
        by_cases h2 : k0 = k2 <;> simp [dictInsert, dictFind, h2]
      · by_cases h2 : k = k2
        · subst h2
          simp [dictInsert, dictFind, h0, ih]
        · simp [dictInsert, dictFind, h0, h2, ih]

lemma foldl_max_le (a : Nat) :
    ∀ (l : List Nat) (i : Nat), i ≤ a → (∀ x ∈ l, x ≤ a) →
      l.foldl max i ≤ a := by
  intro l
  induction l with
  | nil => intro i hi _; exact hi
  | cons x t ih =>
      intro i hi h
      exact ih (max i x) (by
        have := h x (by simp)
        omega) (fun y hy => h y (by simp [hy]))

lemma commit_offsets_append (batch : List Message) (m : Message) :
    OptimizedKafkaConsumer._commit_batch_offsets (batch ++ [m]) =
      dictInsert (OptimizedKafkaConsumer._commit_batch_offsets batch)
        m.tp (m.offset + 1) := by
  unfold OptimizedKafkaConsumer._commit_batch_offsets
  rw [List.foldl_append]
  rfl

lemma maxOffsetIn_append (batch : List Message) (m : Message)
    (tp : TopicPartition) :
    maxOffsetIn (batch ++ [m]) tp =
      if m.tp = tp then max (maxOffsetIn batch tp) m.offset
      else maxOffsetIn batch tp := by
  unfold maxOffsetIn
  rw [List.filter_append, List.map_append]
  by_cases h : m.tp = tp
  · simp [h, List.foldl_append]
  · simp [h]

/-- What `_commit_batch_offsets` looks up to for a partition-ordered
batch: the batch maximum plus one for present partitions, nothing for
absent ones. -/
lemma commit_offsets_find (batch : List Message)
    (h : PartitionOrdered batch) (tp : TopicPartition) :
    dictFind (OptimizedKafkaConsumer._commit_batch_offsets batch) tp =
      if tp ∈ batch.map Message.tp then some (maxOffsetIn batch tp + 1)
      else none := by
  induction batch using List.reverseRecOn with
  | nil => simp [OptimizedKafkaConsumer._commit_batch_offsets, dictFind]
  | append_singleton l m ih =>
      have hpair := (List.pairwise_append.mp h)
      have hl : PartitionOrdered l := hpair.1
      have hlast : ∀ x ∈ l, x.tp = m.tp → x.offset ≤ m.offset := by
        intro x hx
        exact hpair.2.2 x hx m (by simp)
      rw [commit_offsets_append, dictFind_dictInsert, maxOffsetIn_append]
      by_cases hm : m.tp = tp
      · rw [if_pos hm, if_pos hm]
        rw [if_pos (by simp [← hm])]
        have hmax : max (maxOffsetIn l tp) m.offset = m.offset := by
          have hle : maxOffsetIn l tp ≤ m.offset := by
            apply foldl_max_le
            · omega
            · intro x hx
              rw [List.mem_map] at hx
              obtain ⟨mm, hmm, hx⟩ := hx
              rw [List.mem_filter] at hmm
              have htp : mm.tp = tp := by
                have := hmm.2
                simpa using this
              rw [← hx]
              exact hlast mm hmm.1 (by rw [htp, ← hm])
          omega
        rw [hmax]
      · rw [if_neg hm, if_neg hm, ih hl]
        have hmem : (tp ∈ (l ++ [m]).map Message.tp) ↔ tp ∈ l.map Message.tp := by
          simp only [List.map_append, List.mem_append]
          constructor
          · rintro (hh | hh)
            · exact hh
            · simp at hh
              exact absurd hh.symm hm
          · intro hh
            exact Or.inl hh
        by_cases hmem2 : tp ∈ l.map Message.tp
        · rw [if_pos hmem2, if_pos (hmem.mpr hmem2)]
        · rw [if_neg hmem2, if_neg (fun hh => hmem2 (hmem.mp hh))]

lemma handle_batch_error_events (cfg : ConsumerConfig) (batch : List Message)
    (error : PyError) (now : ℤ) (eh : Message → Bool) :
    ∀ ev ∈ OptimizedKafkaConsumer._handle_batch_error cfg batch error now eh,
      (∃ m, ev = OptimizedKafkaConsumer.ConsumerEvent.errorHandlerCall error m) ∨
      (∃ m, ev = OptimizedKafkaConsumer._send_to_dlq cfg m error now) := by
  intro ev hev
  unfold OptimizedKafkaConsumer._handle_batch_error at hev
  rw [List.mem_flatMap] at hev
  obtain ⟨m, hm, hev⟩ := hev
  rcases List.mem_cons.mp hev with h | h
  · exact Or.inl ⟨m, h⟩
  · right
    refine ⟨m, ?_⟩
    split at h
    · simp at h
    · split at h
      · simpa using h
      · simp at h

/-- C6: a non-empty partition-ordered batch whose handler returns
normally produces exactly the two events "invoke handler", then commit
— one commit, strictly after the handler — and the committed dict maps
exactly the partitions present in the batch, each to its largest batch
offset plus one; a batch whose handler raises produces no commit. -/
theorem batch_commit_exactly_once_max_plus_one :
    (∀ (cfg : ConsumerConfig) (batch : List Message) (now : ℤ)
       (eh : Message → Bool),
      batch ≠ [] → PartitionOrdered batch →
      OptimizedKafkaConsumer._process_batch cfg batch none now eh =
        [OptimizedKafkaConsumer.ConsumerEvent.handleBatch batch,
         OptimizedKafkaConsumer.ConsumerEvent.commit
           (OptimizedKafkaConsumer._commit_batch_offsets batch)] ∧
      (∀ tp, tp ∈ batch.map Message.tp →
        dictFind (OptimizedKafkaConsumer._commit_batch_offsets batch) tp =
          some (maxOffsetIn batch tp + 1)) ∧
      (∀ tp, tp ∉ batch.map Message.tp →
        dictFind (OptimizedKafkaConsumer._commit_batch_offsets batch) tp =
          none)) ∧
    (∀ (cfg : ConsumerConfig) (batch : List Message) (e : PyError) (now : ℤ)
       (eh : Message → Bool) (offsets : List (TopicPartition × Nat)),
      OptimizedKafkaConsumer.ConsumerEvent.commit offsets ∉
        OptimizedKafkaConsumer._process_batch cfg batch (some e) now eh) := by
  constructor
  · intro cfg batch now eh hne hord
    refine ⟨rfl, ?_, ?_⟩
    · intro tp htp
      rw [commit_offsets_find batch hord tp, if_pos htp]
    · intro tp htp
      rw [commit_offsets_find batch hord tp, if_neg htp]
  · intro cfg batch e now eh offsets hmem
    unfold OptimizedKafkaConsumer._process_batch at hmem
    rcases List.mem_cons.mp hmem with h | h
    · simp at h
    · rcases handle_batch_error_events cfg batch e now eh _ h with ⟨m, hm⟩ | ⟨m, hm⟩
      · simp at hm
      · simp [OptimizedKafkaConsumer._send_to_dlq] at hm

/-- Concrete consumer configuration used by witnesses. -/
def cfgWit : ConsumerConfig :=
  { bootstrap_servers := "localhost:9092"
    consumer_group := "clean-platform-consumer"
    topics := ["platform-events"]
    fetch_min_bytes := 65536
    fetch_max_wait_ms := 500
    max_poll_records := 500
    max_poll_interval_ms := 300000
    session_timeout_ms := 30000
    batch_size := 1000
    batch_timeout_ms := 5000
    num_workers := 4
    max_retries := 3
    retry_backoff_ms := 1000
    enable_dlq := true
    dlq_topic := none }

/-- A concrete two-partition batch, in partition order. -/
def batchWit : List Message :=
  [{ topic := "platform-events", partition := 0, offset := 5, key := none,
     value := "a", timestamp := 100, headers := [], retry_count := none },
   { topic := "platform-events", partition := 1, offset := 3, key := none,
     value := "b", timestamp := 101, headers := [], retry_count := none },
   { topic := "platform-events", partition := 0, offset := 6, key := none,
     value := "c", timestamp := 102, headers := [], retry_count := none }]

/-- Witness for C6 at a concrete batch: partition 0 commits to `6 + 1`,
partition 1 to `3 + 1`, an absent partition is not committed, and the
failing-handler path of the same batch commits nothing. -/
theorem batch_commit_exactly_once_max_plus_one_witness :
    (OptimizedKafkaConsumer._process_batch cfgWit
        batchWit none 200 (fun _ => false) =
      [OptimizedKafkaConsumer.ConsumerEvent.handleBatch batchWit,
       OptimizedKafkaConsumer.ConsumerEvent.commit
         (OptimizedKafkaConsumer._commit_batch_offsets batchWit)]) ∧
    dictFind (OptimizedKafkaConsumer._commit_batch_offsets batchWit)
      ("platform-events", 0) = some (maxOffsetIn batchWit ("platform-events", 0) + 1) ∧
    dictFind (OptimizedKafkaConsumer._commit_batch_offsets batchWit)
      ("platform-events", 7) = none := by
  have h := batch_commit_exactly_once_max_plus_one.1 cfgWit
    batchWit 200 (fun _ => false) (by decide) (by decide)
  exact ⟨h.1, h.2.1 ("platform-events", 0) (by decide),
    h.2.2 ("platform-events", 7) (by decide)⟩

open OptimizedKafkaConsumer in
/-- Project the DLQ producer sends (topic, payload, key) out of an event
trace, in order. -/
def dlqSends (events : List ConsumerEvent) :
    List (String × DlqMessage × Option String) :=
  events.filterMap (fun ev =>
    match ev with
    | ConsumerEvent.dlqSend t v k => some (t, v, k)
    | _ => none)

open OptimizedKafkaConsumer in
lemma dlqSends_handle_batch_error (cfg : ConsumerConfig) (e : PyError)
    (now : ℤ) (eh : Message → Bool) (hdlq : cfg.enable_dlq = true) :
    ∀ (batch : List Message), (∀ m ∈ batch, eh m = false) →
      dlqSends (_handle_batch_error cfg batch e now eh) =
        batch.map (fun m =>
          (dlqTopicFor cfg m,
           { original_message := m, error := e.message,
             error_type := e.type_name, timestamp := now,
             consumer_group := cfg.consumer_group,
             retry_count := m.retry_count.getD 0 + 1 }, m.key)) := by
  intro batch
  induction batch with
  | nil => intro _; rfl
  | cons m rest ih =>
      intro heh
      have hm := heh m (by simp)
      unfold OptimizedKafkaConsumer._handle_batch_error dlqSends at ih ⊢
      rw [List.flatMap_cons, List.filterMap_append]
      rw [ih (fun x hx => heh x (by simp [hx]))]
      rw [hm, hdlq]
      simp [OptimizedKafkaConsumer._send_to_dlq]

open OptimizedKafkaConsumer in
lemma errorHandlerCall_count (cfg : ConsumerConfig) (e : PyError) (now : ℤ)
    (eh : Message → Bool) :
    ∀ (batch : List Message),
      (_handle_batch_error cfg batch e now eh).countP
        (fun ev =>
          match ev with
          | ConsumerEvent.errorHandlerCall _ _ => true
          | _ => false) = batch.length := by
  intro batch
  induction batch with
  | nil => rfl
  | cons m rest ih =>
      unfold OptimizedKafkaConsumer._handle_batch_error at ih ⊢
      rw [List.flatMap_cons, List.countP_append, ih]
      rw [List.countP_cons]
      have hz : (if eh m then ([] : List ConsumerEvent)
          else if cfg.enable_dlq then [_send_to_dlq cfg m e now] else []).countP
          (fun ev =>
            match ev with
            | ConsumerEvent.errorHandlerCall _ _ => true
            | _ => false) = 0 := by
        split
        · rfl
        · split
          · simp [OptimizedKafkaConsumer._send_to_dlq, List.countP_cons]
          · rfl
      rw [hz]
      simp [List.length_cons]
      omega

open OptimizedKafkaConsumer in
/-- C7: for a failed batch with dead-lettering enabled (its producer
exists exactly when `enable_dlq`) and an error handler that does not
itself raise, the batch error path issues exactly one DLQ send per
message, in batch order, to `dlq_topic` when set and non-empty and to
`{original_topic}-dlq` otherwise, each wrapping the original message,
`str(error)`, the error type name, the send timestamp, the consumer
group, and the message's `retry_count` (`0` when absent) plus one; and
the error handler fires once per message regardless of which error
handlers raise (a raising handler only skips that message's DLQ send,
and a failing producer send is caught inside `_send_to_dlq`). -/
theorem failed_batch_dlq_send_per_message :
    ∀ (cfg : ConsumerConfig) (batch : List Message) (e : PyError) (now : ℤ)
      (eh : Message → Bool),
      cfg.enable_dlq = true → (∀ m ∈ batch, eh m = false) →
      (dlqSends (_process_batch cfg batch (some e) now eh) =
        batch.map (fun m =>
          (dlqTopicFor cfg m,
           { original_message := m, error := e.message,
             error_type := e.type_name, timestamp := now,
             consumer_group := cfg.consumer_group,
             retry_count := m.retry_count.getD 0 + 1 }, m.key)) ∧
       (dlqSends (_process_batch cfg batch (some e) now eh)).length =
         batch.length) ∧
      (∀ eh2 : Message → Bool,
        (_process_batch cfg batch (some e) now eh2).countP
          (fun ev =>
            match ev with
            | ConsumerEvent.errorHandlerCall _ _ => true
            | _ => false) = batch.length) := by
  intro cfg batch e now eh hdlq heh
  have hsends : dlqSends (_process_batch cfg batch (some e) now eh) =
      batch.map (fun m =>
        (dlqTopicFor cfg m,
         { original_message := m, error := e.message,
           error_type := e.type_name, timestamp := now,
           consumer_group := cfg.consumer_group,
           retry_count := m.retry_count.getD 0 + 1 }, m.key)) := by
    unfold OptimizedKafkaConsumer._process_batch dlqSends
    rw [List.filterMap_cons]
    exact dlqSends_handle_batch_error cfg e now eh hdlq batch heh
  refine ⟨⟨hsends, by rw [hsends, List.length_map]⟩, ?_⟩
  intro eh2
  unfold OptimizedKafkaConsumer._process_batch
  rw [List.countP_cons]
  rw [errorHandlerCall_count cfg e now eh2 batch]
  rfl

open OptimizedKafkaConsumer in
/-- Witness for C7 at a concrete failed batch of three messages:
exactly three DLQ sends, in order, each to `platform-events-dlq` with
the original message, error context, consumer group, and
`retry_count = 0 + 1`. -/
theorem failed_batch_dlq_send_per_message_witness :
    (dlqSends (_process_batch cfgWit batchWit
        (some { message := "boom", type_name := "ValueError" }) 300
        (fun _ => false))).length = 3 ∧
    dlqSends (_process_batch cfgWit batchWit
        (some { message := "boom", type_name := "ValueError" }) 300
        (fun _ => false)) =
      batchWit.map (fun m =>
        (dlqTopicFor cfgWit m,
         { original_message := m, error := "boom",
           error_type := "ValueError", timestamp := 300,
           consumer_group := cfgWit.consumer_group,
           retry_count := m.retry_count.getD 0 + 1 }, m.key)) := by
  have h := failed_batch_dlq_send_per_message cfgWit batchWit
    { message := "boom", type_name := "ValueError" } 300 (fun _ => false)
    (by decide) (fun m _ => rfl)
  exact ⟨h.1.2.trans (by decide), h.1.1⟩

open OptimizedKafkaConsumer in
/-- Counterexample to C8: `start()` has no guard — calling it a second
time on an already-running instance spawns a second set of
`num_workers` worker threads, a second lag monitor and a second poll
loop (8 workers, 2 monitors, 2 loops with `num_workers = 4`), instead
of being a no-op or an error. -/
theorem start_twice_spawns_again :
    (start cfgWit initRunState).running = true ∧
    (start cfgWit initRunState).processing_threads = 4 ∧
    (start cfgWit (start cfgWit initRunState)).processing_threads = 8 ∧
    (start cfgWit (start cfgWit initRunState)).lag_monitors = 2 ∧
    (start cfgWit (start cfgWit initRunState)).poll_loops = 2 ∧
    ¬ ((start cfgWit (start cfgWit initRunState)).processing_threads =
        (start cfgWit initRunState).processing_threads) := by
  refine ⟨rfl, rfl, rfl, rfl, rfl, ?_⟩
  decide

open OptimizedKafkaConsumer in
/-- Amended C8: `start()` is not idempotent — every call, including on
an instance already running, sets the running flag and spawns a further
`num_workers` workers, one further lag monitor and one further poll
loop. -/
theorem start_unguarded_spawns_each_call :
    ∀ (cfg : ConsumerConfig) (s : ConsumerRunState),
      (start cfg s).running = true ∧
      (start cfg s).processing_threads = s.processing_threads + cfg.num_workers ∧
      (start cfg s).lag_monitors = s.lag_monitors + 1 ∧
      (start cfg s).poll_loops = s.poll_loops + 1 :=
  fun _ _ => ⟨rfl, rfl, rfl, rfl⟩

open OptimizedKafkaConsumer in
/-- C9: with `batch_size ≥ 1`, on every reachable buffer state the open
batch buffer holds strictly fewer than `batch_size` messages (a
size-triggered flush fires as soon as the buffer reaches `batch_size`),
and every batch ever dispatched to the handler is non-empty and holds
at most `batch_size` messages; each flush leaves the buffer empty. -/
theorem batch_buffer_bounds :
    ∀ (cfg : ConsumerConfig) (s : BatchState), 1 ≤ cfg.batch_size →
      BatchReach cfg s →
      s.batch_queue.length < cfg.batch_size ∧
      (∀ b ∈ s.dispatched, b ≠ [] ∧ b.length ≤ cfg.batch_size) := by
  intro cfg s h1 hreach
  induction hreach with
  | init t0 =>
      refine ⟨by simpa [initBatchState] using h1, ?_⟩
      intro b hb
      simp [initBatchState] at hb
  | step hr hstep ih =>
      obtain ⟨ihq, ihd⟩ := ih
      cases hstep with
      | add record now =>
          unfold OptimizedKafkaConsumer._add_to_batch
          dsimp only
          split
          · rename_i hfull
            unfold OptimizedKafkaConsumer._flush_batch
            rw [if_neg (by simp)]
            refine ⟨by simpa using h1, ?_⟩
            intro b hb
            rcases List.mem_append.mp hb with hb | hb
            · exact ihd b hb
            · rw [List.mem_singleton] at hb
              subst hb
              refine ⟨by simp, ?_⟩
              simp only [List.length_append, List.length_cons, List.length_nil]
              omega
          · rename_i hnotfull
            refine ⟨?_, ihd⟩
            simp only [List.length_append, List.length_cons, List.length_nil]
            simp only [List.length_append, List.length_cons, List.length_nil] at hnotfull
            omega
      | checkTimeout now =>
          unfold OptimizedKafkaConsumer._check_batch_timeout
          split
          · rename_i hcond
            unfold OptimizedKafkaConsumer._flush_batch
            rw [if_neg (by
              rcases hcond with ⟨-, hne⟩
              simpa using hne)]
            refine ⟨by simpa using h1, ?_⟩
            intro b hb
            rcases List.mem_append.mp hb with hb | hb
            · exact ihd b hb
            · rw [List.mem_singleton] at hb
              subst hb
              rcases hcond with ⟨-, hne⟩
              exact ⟨by simpa using hne, by omega⟩
          · exact ⟨ihq, ihd⟩
      | stopFlush now =>
          unfold OptimizedKafkaConsumer._flush_batch
          split
          · exact ⟨ihq, ihd⟩
          · rename_i hne
            refine ⟨by simpa using h1, ?_⟩
            intro b hb
            rcases List.mem_append.mp hb with hb | hb
            · exact ihd b hb
            · rw [List.mem_singleton] at hb
              subst hb
              exact ⟨by simpa using hne, by omega⟩

/-- A concrete polled record. -/
def recWit (off : Nat) : KafkaRecord :=
  { topic := "platform-events", partition := 0, offset := off, key := none,
    value := "a", timestamp := 100, headers := [] }

open OptimizedKafkaConsumer in
/-- Witness for C9: with `batch_size = 2`, adding two records reaches a
state whose buffer is again below the bound and whose single dispatched
batch is the two messages. -/
theorem batch_buffer_bounds_witness :
    (_add_to_batch { cfgWit with batch_size := 2 }
        (_add_to_batch { cfgWit with batch_size := 2 } (initBatchState 0)
          (recWit 5) 1)
        (recWit 6) 2).batch_queue.length <
      ({ cfgWit with batch_size := 2 } : ConsumerConfig).batch_size ∧
    (∀ b ∈ (_add_to_batch { cfgWit with batch_size := 2 }
        (_add_to_batch { cfgWit with batch_size := 2 } (initBatchState 0)
          (recWit 5) 1)
        (recWit 6) 2).dispatched,
      b ≠ [] ∧ b.length ≤ ({ cfgWit with batch_size := 2 } : ConsumerConfig).batch_size) := by
  have hr : BatchReach { cfgWit with batch_size := 2 }
      (_add_to_batch { cfgWit with batch_size := 2 }
        (_add_to_batch { cfgWit with batch_size := 2 } (initBatchState 0)
          (recWit 5) 1)
        (recWit 6) 2) :=
    BatchReach.step
      (BatchReach.step (BatchReach.init 0) (BatchStep.add _ (recWit 5) 1))
      (BatchStep.add _ (recWit 6) 2)
  exact batch_buffer_bounds { cfgWit with batch_size := 2 } _ (by decide) hr
